import Mathlib

/-!
# Streaming muxer of DOSBox (`src/libs/ffmpeg/muxing.c`, `muxing.h`)

A shallow embedding of the stream session: stream setup (`add_stream`,
`open_video`, `open_audio`, `streaming_init`), the per-frame encode paths
(`get_video_frame`, `write_video_frame`, `get_audio_frame`,
`write_audio_frame`), the audio accumulator (`streaming_audio`) and teardown
(`close_stream`, `streaming_cleanup`).

The codec and container library is an external collaborator.  Every return
value of a library call is a scripted response carried by an environment
record, and every library call that matters to a property is recorded in a
ghost trace of `Event`s, in program order.

Conventions.
* `int`, `int64_t` and `Bit32u` values are `Int`s; arithmetic that can leave
  the type is wrapped explicitly (`wrap32`, `wrap64`, `% 2^32`).
* Pointers are `Option`s (`none` is `NULL`) or `Bool`s (is the handle live).
* A function returns `none` when the C code has no defined return value
  there: a `NULL` dereference, an out-of-bounds `memcpy`, or a scripted
  response list that ran out while the send/receive loop was still running.
-/

namespace Muxing

/-! ## Machine integers -/

/-- Two's-complement reduction of an integer to the range of a 32-bit `int`. -/
def wrap32 (x : Int) : Int := (x + 2147483648) % 4294967296 - 2147483648

/-- Two's-complement reduction of an integer to the range of `int64_t`. -/
def wrap64 (x : Int) : Int :=
  (x + 9223372036854775808) % 18446744073709551616 - 9223372036854775808

/-- Conversion of an `int` to `Bit32u` / `unsigned` (value modulo 2^32). -/
def toU32 (x : Int) : Int := x % 4294967296

/-! ## Library data the code reads -/

/-- Rational time base `AVRational`, numerator and denominator. -/
structure AVRational where
  num : Int
  den : Int
deriving DecidableEq, Repr

/-- Values of `AVCodec.type` that `add_stream` switches on. -/
inductive AVMediaType where
  | video
  | audio
  | other
deriving DecidableEq, Repr

/-- The two pipelines of a session: `video_st` and `audio_st`. -/
inductive Kind where
  | video
  | audio
deriving DecidableEq, Repr

/-- Encoder descriptor `AVCodec`, as far as `add_stream` and `open_audio`
read it.  A capability array is `none` when the pointer is `NULL`, otherwise
the contents of the array object, terminator included. -/
structure AVCodec where
  type : AVMediaType
  sample_fmts : Option (List Int)
  supported_samplerates : Option (List Int)
  channel_layouts : Option (List Int)
  variable_frame_size : Bool
deriving DecidableEq, Repr

/-- Constants and pure functions of the codec library that `muxing.c` uses
and that the library headers, not this repository, define. -/
structure Lib where
  /-- Value of `AVERROR(EAGAIN)`: the encoder has no packet ready. -/
  AVERROR_EAGAIN : Int
  /-- Value of `AVERROR_EOF`: the encoder is fully drained. -/
  AVERROR_EOF : Int
  /-- Value of `AV_CH_LAYOUT_STEREO`. -/
  AV_CH_LAYOUT_STEREO : Int
  /-- Value of `AV_SAMPLE_FMT_S16`. -/
  AV_SAMPLE_FMT_S16 : Int
  /-- Value of `AV_PIX_FMT_YUV420P`. -/
  AV_PIX_FMT_YUV420P : Int
  /-- Function `av_get_channel_layout_nb_channels`. -/
  av_get_channel_layout_nb_channels : Int → Int
  /-- Function `av_rescale_q a bq cq`. -/
  av_rescale_q : Int → AVRational → AVRational → Int
  /-- Function `av_rescale_rnd a b c AV_ROUND_UP`. -/
  av_rescale_rnd_up : Int → Int → Int → Int

/-- Frame `AVFrame`: presentation timestamp, capacity in samples, and the
bytes of `data[0]` (the whole allocated object). -/
structure AVFrame where
  pts : Int
  nb_samples : Int
  data : List Nat
deriving DecidableEq, Repr

/-- Stream `AVStream`, as far as the code writes it. -/
structure AVStream where
  id : Int
  time_base : AVRational
  /-- Set once `avcodec_parameters_from_context` has filled `codecpar`. -/
  codecpar_set : Bool
deriving DecidableEq, Repr

/-- Codec context `AVCodecContext`, the fields `muxing.c` writes or reads. -/
structure AVCodecContext where
  sample_fmt : Int
  bit_rate : Int
  sample_rate : Int
  channel_layout : Int
  channels : Int
  width : Int
  height : Int
  time_base : AVRational
  gop_size : Int
  pix_fmt : Int
  frame_size : Int
  global_header : Bool
  /-- Set once `avcodec_open2` has succeeded on this context. -/
  opened : Bool
deriving DecidableEq, Repr

/-- Wrapper `OutputStream` of `muxing.h`. -/
structure OutputStream where
  st : Option AVStream
  enc : Option AVCodecContext
  next_pts : Int
  samples_count : Int
  frame : Option AVFrame
  tmp_frame : Option AVFrame
  sws_ctx : Bool
  swr_ctx : Bool
  pkt : Bool
deriving DecidableEq, Repr

/-- Session `StreamContext` of `muxing.h`.  `oc` tells whether the container
context is allocated; `nb_streams` is the stream count it holds. -/
structure StreamContext where
  oc : Bool
  nb_streams : Int
  audio_codec : Option AVCodec
  video_codec : Option AVCodec
  video_st : OutputStream
  audio_st : OutputStream
  width : Int
  height : Int
  fps : Int
  bufferedAudio : Int
  frames : Int
deriving DecidableEq, Repr

/-! ## Ghost trace -/

/-- Calls that the properties below observe, in program order. -/
inductive Event where
  /-- Entry of `write_audio_frame`: its `nb_samples` argument as passed by the
  caller and the bytes of `tmp_frame->data[0]` at that moment. -/
  | audio_call (nb_samples : Int) (data : List Nat)
  /-- Call `swr_convert` of `write_audio_frame`: the number of destination
  samples it is asked for and its return value. -/
  | swr_convert (dst_nb_samples : Int) (ret : Int)
  /-- Call `avcodec_send_frame`; `pts` is `none` for a `NULL` frame. -/
  | send_frame (k : Kind) (pts : Option Int) (ret : Int)
  /-- Call `avcodec_receive_packet` and its return value. -/
  | receive_packet (k : Kind) (ret : Int)
  /-- Call `av_interleaved_write_frame` (inside `write_frame`). -/
  | interleaved_write (k : Kind) (ret : Int)
  /-- Call `av_write_trailer`. -/
  | write_trailer
  /-- Call `close_stream`, which frees the codec context of the pipeline. -/
  | close_stream (k : Kind)
  /-- Call `avformat_free_context`. -/
  | free_context
deriving DecidableEq, Repr

/-! ## Encoder pump -/

/-- One iteration of scripted responses for the receive loop: what
`avcodec_receive_packet` returns and, if a packet came out, what
`av_interleaved_write_frame` returns for it. -/
structure PumpStep where
  receive : Int
  write : Int
deriving DecidableEq, Repr

/-- Function `write_frame` (lines 67-76): rescales the packet timestamps,
tags the stream index and returns what `av_interleaved_write_frame` returns.
Packets are opaque here; the result and the call are what is observed. -/
def write_frame (k : Kind) (interleaved_ret : Int) : Int × List Event :=
  (interleaved_ret, [Event.interleaved_write k interleaved_ret])

/-- The loop `while (ret >= 0) { ... }` and the final `return` shared, text
for text, by `write_audio_frame` (lines 333-351) and `write_video_frame`
(lines 476-494).  `frame` tells whether the local `frame` is non-null,
`ret` and `got_packet` are the locals on loop entry.  The result is the
function's return value and the events of the loop. -/
def encode_loop (L : Lib) (k : Kind) (frame : Bool) :
    List PumpStep → Int → Bool → Option (Int × List Event)
  | [], ret, got_packet =>
    if 0 ≤ ret then none
    else some (if frame || got_packet then 0 else 1, [])
  | s :: rest, ret, got_packet =>
    if 0 ≤ ret then
      let ret := s.receive
      if ret = L.AVERROR_EAGAIN ∨ ret = L.AVERROR_EOF then
        some (0, [Event.receive_packet k ret])
      else if ret < 0 then
        some (-1, [Event.receive_packet k ret])
      else
        -- got_packet |= 1
        let got_packet := true
        let w := write_frame k s.write
        if w.1 < 0 then
          some (-1, Event.receive_packet k ret :: w.2)
        else
          -- ret = 0
          match encode_loop L k frame rest 0 got_packet with
          | none => none
          | some (r, evs) => some (r, Event.receive_packet k ret :: w.2 ++ evs)
    else some (if frame || got_packet then 0 else 1, [])

/-! ## Video path -/

/-- Scripted responses for frame preparation in `get_video_frame`. -/
structure FrameEnv where
  /-- Return value of `av_frame_make_writable(ost->frame)`. -/
  make_writable : Int
  /-- Whether `sws_getContext` returns a context when it is called. -/
  sws_getContext : Bool
deriving DecidableEq, Repr

/-- Function `get_video_frame` (lines 422-452).  The inner option is the
returned frame pointer (`none` is `NULL`). -/
def get_video_frame (ost : OutputStream) (e : FrameEnv) :
    Option (Option AVFrame × OutputStream) :=
  match ost.frame with
  | none => none
  | some f =>
    if e.make_writable < 0 then some (none, ost)
    else
      -- c->width, c->height
      match ost.enc with
      | none => none
      | some _ =>
        if !ost.sws_ctx && !e.sws_getContext then some (none, ost)
        else
          -- ost->tmp_frame->data
          match ost.tmp_frame with
          | none => none
          | some _ =>
            let f := { f with pts := ost.next_pts }
            some (some f, { ost with sws_ctx := true, frame := some f,
                                     next_pts := wrap64 (ost.next_pts + 1) })

/-- Scripted responses for one call of `write_video_frame`. -/
structure VideoEnv where
  frame : FrameEnv
  /-- Return value of `avcodec_send_frame`. -/
  send : Int
  /-- Responses of the receive loop, one per iteration. -/
  script : List PumpStep
deriving DecidableEq, Repr

/-- Function `write_video_frame` (lines 458-495). -/
def write_video_frame (L : Lib) (ost : OutputStream) (e : VideoEnv) :
    Option (Int × OutputStream × List Event) :=
  match get_video_frame ost e.frame with
  | none => none
  | some (frame, ost) =>
    let got_packet := false
    let ret := e.send
    let sent := Event.send_frame Kind.video (frame.map AVFrame.pts) ret
    if ret < 0 then some (ret, ost, [sent])
    else
      match encode_loop L Kind.video frame.isSome e.script ret got_packet with
      | none => none
      | some (r, evs) => some (r, ost, sent :: evs)

/-- Function `streaming_video` (lines 591-594). -/
def streaming_video (L : Lib) (ctx : StreamContext) (e : VideoEnv) :
    Option (Int × StreamContext × List Event) :=
  match write_video_frame L ctx.video_st e with
  | none => none
  | some (r, ost, evs) => some (r, { ctx with video_st := ost }, evs)

/-! ## Audio path -/

/-- Scripted responses for one call of `write_audio_frame`. -/
structure AudioEnv where
  /-- Return value of `swr_get_delay`. -/
  delay : Int
  /-- Return value of `av_frame_make_writable(ost->frame)`. -/
  make_writable : Int
  /-- Return value of `swr_convert`. -/
  swr_convert : Int
  /-- Return value of `avcodec_send_frame`. -/
  send : Int
  /-- Value that the uninitialised local `got_packet` happens to hold. -/
  got_packet : Bool
  /-- Responses of the receive loop, one per iteration. -/
  script : List PumpStep
deriving DecidableEq, Repr

/-- Function `get_audio_frame` (lines 270-280): returns `ost->tmp_frame`,
the value left in `*nb_samples`, and the updated stream. -/
def get_audio_frame (ost : OutputStream) (nb_samples : Int) :
    Option (AVFrame × Int × OutputStream) :=
  match ost.tmp_frame with
  | none => none
  | some frame =>
    let frame := { frame with pts := ost.next_pts }
    let nb_samples := if nb_samples = 0 then frame.nb_samples else nb_samples
    some (frame, nb_samples,
      { ost with tmp_frame := some frame, next_pts := wrap64 (ost.next_pts + nb_samples) })

/-- Function `write_audio_frame` (lines 286-352). -/
def write_audio_frame (L : Lib) (ost : OutputStream) (nb_samples : Int) (e : AudioEnv) :
    Option (Int × OutputStream × List Event) :=
  match ost.enc, ost.frame, get_audio_frame ost nb_samples with
  | some c, some fr, some (tmp, nb, ost) =>
    let called := Event.audio_call nb_samples tmp.data
    -- frame is ost->tmp_frame, which is not NULL here
    let dst_nb_samples :=
      wrap32 (L.av_rescale_rnd_up (e.delay + nb) c.sample_rate c.sample_rate)
    let converted := Event.swr_convert dst_nb_samples e.swr_convert
    if e.make_writable < 0 then some (e.make_writable, ost, [called])
    else if e.swr_convert < 0 then some (e.swr_convert, ost, [called, converted])
    else
      let fr := { fr with
        pts := L.av_rescale_q ost.samples_count ⟨1, c.sample_rate⟩ c.time_base }
      let ost := { ost with frame := some fr,
                            samples_count := wrap32 (ost.samples_count + dst_nb_samples) }
      let ret := e.send
      let sent := Event.send_frame Kind.audio (some fr.pts) ret
      if ret < 0 then some (ret, ost, [called, converted, sent])
      else
        match encode_loop L Kind.audio true e.script ret e.got_packet with
        | none => none
        | some (r, evs) => some (r, ost, called :: converted :: sent :: evs)
  | _, _, _ => none

/-- Library call `memcpy(dst + dstOff, src + srcOff, n)` on the bytes of two
objects; `none` when a range leaves its object (a negative `int` size becomes
a huge `size_t`). -/
def memcpy (dst : List Nat) (dstOff : Int) (src : List Nat) (srcOff n : Int) :
    Option (List Nat) :=
  if 0 ≤ dstOff ∧ 0 ≤ srcOff ∧ 0 ≤ n ∧
      dstOff + n ≤ dst.length ∧ srcOff + n ≤ src.length then
    some (dst.take dstOff.toNat ++ (src.drop srcOff.toNat).take n.toNat
            ++ dst.drop (dstOff + n).toNat)
  else none

/-- Function `streaming_audio` (lines 596-621).  `len` counts stereo 16-bit
sample pairs, `data` is the object the `Bit16s *data` argument points into,
as bytes; `&data[i]` is byte offset `2 * i` of it. -/
def streaming_audio (L : Lib) (ctx : StreamContext) (len : Nat) (data : List Nat)
    (e : AudioEnv) : Option (Int × StreamContext × List Event) :=
  -- len *= 4 on a Bit32u
  let len := toU32 ((len : Int) * 4)
  match ctx.audio_st.tmp_frame with
  | none => some (0, ctx, [])
  | some frame =>
    let frameByfferSize := wrap32 (frame.nb_samples * 4)
    -- min(len, frameByfferSize - ctx->bufferedAudio): compared as unsigned
    let copyBytes :=
      wrap32 (min len (toU32 (wrap32 (frameByfferSize - ctx.bufferedAudio))))
    match memcpy frame.data ctx.bufferedAudio data 0 copyBytes with
    | none => none
    | some buf =>
      let ost := { ctx.audio_st with tmp_frame := some { frame with data := buf } }
      let bufferedAudio := wrap32 (ctx.bufferedAudio + copyBytes)
      match write_audio_frame L ost (Int.tdiv bufferedAudio 4) e with
      | none => none
      | some (ret, ost, evs) =>
        -- ctx->bufferedAudio = 0
        if toU32 copyBytes < len then
          match ost.tmp_frame with
          | none => none
          | some frame =>
            match memcpy frame.data 0 data (2 * copyBytes) (toU32 (len - copyBytes)) with
            | none => none
            | some buf =>
              some (ret, { ctx with
                audio_st := { ost with tmp_frame := some { frame with data := buf } },
                bufferedAudio := 0 }, evs)
        else some (ret, { ctx with audio_st := ost, bufferedAudio := 0 }, evs)

/-- A run of consecutive `streaming_audio` calls, each with its sample count,
its data object and its scripted responses; the traces are concatenated. -/
def audio_session (L : Lib) :
    StreamContext → List (Nat × List Nat × AudioEnv) → Option (StreamContext × List Event)
  | ctx, [] => some (ctx, [])
  | ctx, (len, data, e) :: rest =>
    match streaming_audio L ctx len data e with
    | none => none
    | some (_, ctx, evs) =>
      match audio_session L ctx rest with
      | none => none
      | some (ctx, evs2) => some (ctx, evs ++ evs2)

/-- A run of consecutive `streaming_video` calls; the traces are concatenated. -/
def video_session (L : Lib) :
    StreamContext → List VideoEnv → Option (StreamContext × List Event)
  | ctx, [] => some (ctx, [])
  | ctx, e :: rest =>
    match streaming_video L ctx e with
    | none => none
    | some (_, ctx, evs) =>
      match video_session L ctx rest with
      | none => none
      | some (ctx, evs2) => some (ctx, evs ++ evs2)

/-- The `nb_samples` arguments of the `write_audio_frame` invocations. -/
def audio_calls : List Event → List Int
  | [] => []
  | Event.audio_call nb _ :: rest => nb :: audio_calls rest
  | _ :: rest => audio_calls rest

/-- The buffers seen by the `write_audio_frame` invocations, each cut to the
bytes that the invocation's sample count covers. -/
def audio_payloads : List Event → List (List Nat)
  | [] => []
  | Event.audio_call nb data :: rest => data.take (4 * nb).toNat :: audio_payloads rest
  | _ :: rest => audio_payloads rest

/-- The timestamps of the frames handed to `avcodec_send_frame` for pipeline
`k` (`none` for a `NULL` frame). -/
def sent_pts (k : Kind) : List Event → List (Option Int)
  | [] => []
  | Event.send_frame k2 pts _ :: rest =>
    if k2 = k then pts :: sent_pts k rest else sent_pts k rest
  | _ :: rest => sent_pts k rest

/-! ## Stream setup -/

/-- The loop `for (i = 0; arr[i]; i++) if (arr[i] == preferred) cur = preferred;`
of `add_stream` (lines 122-125 and 130-133) over the rest of the array; `none`
when the array object ends before a zero entry is read. -/
def scan_capabilities (preferred : Int) : List Int → Int → Option Int
  | [], _ => none
  | x :: rest, cur =>
    if x = 0 then some cur
    else scan_capabilities preferred rest (if x = preferred then preferred else cur)

/-- The selection `cur = preferred; if (arr) { cur = arr[0]; for ... }` that
`add_stream` performs for the sample rate (lines 119-126) and for the channel
layout (lines 127-134). -/
def select_capability (preferred : Int) : Option (List Int) → Option Int
  | none => some preferred
  | some [] => none
  | some (x :: rest) => scan_capabilities preferred (x :: rest) x

/-- The selection `arr ? arr[0] : fallback` of the sample format (lines 116-117). -/
def first_capability (fallback : Int) : Option (List Int) → Option Int
  | none => some fallback
  | some [] => none
  | some (x :: _) => some x

/-- Scripted responses of the library calls in one `add_stream`. -/
structure StreamEnv where
  /-- Result of `avcodec_find_encoder`. -/
  find_encoder : Option AVCodec
  /-- Result of `avformat_new_stream`, as the library initialises it. -/
  new_stream : Option AVStream
  /-- Result of `avcodec_alloc_context3`, as the library initialises it. -/
  alloc_context3 : Option AVCodecContext
  /-- Whether `av_packet_alloc` returns a packet. -/
  packet_alloc : Bool
deriving DecidableEq, Repr

/-- Function `add_stream` (lines 79-176).  `nb_streams` is `oc->nb_streams`
on entry and `globalheader` is `oc->oformat->flags & AVFMT_GLOBALHEADER`.
Returns the result, the stream, `*codec` and `oc->nb_streams`.  The codec-id
specific tuning of MPEG-1/2 (lines 155-164) touches fields that nothing else
reads and is left out. -/
def add_stream (L : Lib) (ost : OutputStream) (nb_streams : Int) (globalheader : Bool)
    (width height fps : Int) (e : StreamEnv) :
    Option (Int × OutputStream × Option AVCodec × Int) :=
  match e.find_encoder with
  | none => some (-1, ost, none, nb_streams)
  | some codec =>
    match e.new_stream with
    | none => some (-1, { ost with st := none }, some codec, nb_streams)
    | some st =>
      let nb_streams := nb_streams + 1
      let st := { st with id := nb_streams - 1 }
      match e.alloc_context3 with
      | none => some (-1, { ost with st := some st }, some codec, nb_streams)
      | some c =>
        if !e.packet_alloc then
          some (-1, { ost with st := some st, enc := some c, pkt := false },
                some codec, nb_streams)
        else
          let flag (c : AVCodecContext) : AVCodecContext :=
            if globalheader then { c with global_header := true } else c
          match codec.type with
          | AVMediaType.audio =>
            match first_capability L.AV_SAMPLE_FMT_S16 codec.sample_fmts,
                  select_capability 44100 codec.supported_samplerates,
                  select_capability L.AV_CH_LAYOUT_STEREO codec.channel_layouts with
            | some sample_fmt, some sample_rate, some channel_layout =>
              let c := { c with
                sample_fmt := sample_fmt, bit_rate := 64000, sample_rate := sample_rate,
                channel_layout := channel_layout,
                channels := L.av_get_channel_layout_nb_channels channel_layout }
              let st := { st with time_base := ⟨1, c.sample_rate⟩ }
              some (0, { ost with st := some st, enc := some (flag c), pkt := true },
                    some codec, nb_streams)
            | _, _, _ => none
          | AVMediaType.video =>
            let st := { st with time_base := ⟨1, fps⟩ }
            let c := { c with
              bit_rate := 750000, width := width, height := height,
              time_base := st.time_base, gop_size := 12,
              pix_fmt := L.AV_PIX_FMT_YUV420P }
            some (0, { ost with st := some st, enc := some (flag c), pkt := true },
                  some codec, nb_streams)
          | AVMediaType.other =>
            some (0, { ost with st := some st, enc := some (flag c), pkt := true },
                  some codec, nb_streams)

/-- Scripted responses of one `alloc_audio_frame`. -/
structure AllocEnv where
  /-- Whether `av_frame_alloc` returns a frame. -/
  frame_alloc : Bool
  /-- Return value of `av_frame_get_buffer`. -/
  get_buffer : Int
  /-- The buffer object that `av_frame_get_buffer` attaches as `data[0]`. -/
  buffer : List Nat
deriving DecidableEq, Repr

/-- Function `alloc_audio_frame` (lines 181-207). -/
def alloc_audio_frame (nb_samples : Int) (e : AllocEnv) : Option AVFrame :=
  if !e.frame_alloc then none
  else if nb_samples ≠ 0 then
    if e.get_buffer < 0 then none
    else some { pts := 0, nb_samples := nb_samples, data := e.buffer }
  else some { pts := 0, nb_samples := nb_samples, data := [] }

/-- Scripted responses of the library calls in `open_audio`. -/
structure OpenAudioEnv where
  /-- Return value of `avcodec_open2`. -/
  open2 : Int
  /-- Value of `c->frame_size` once the encoder is open. -/
  frame_size : Int
  /-- Value of `c->time_base` once the encoder is open. -/
  time_base : AVRational
  frame : AllocEnv
  tmp_frame : AllocEnv
  /-- Return value of `avcodec_parameters_from_context`. -/
  parameters_from_context : Int
  /-- Whether `swr_alloc` returns a context. -/
  swr_alloc : Bool
  /-- Return value of `swr_init`. -/
  swr_init : Int
deriving DecidableEq, Repr

/-- Function `open_audio` (lines 209-266). -/
def open_audio (codec : Option AVCodec) (ost : OutputStream) (e : OpenAudioEnv) :
    Option (Int × OutputStream) :=
  match ost.enc, codec with
  | some c, some codec =>
    if e.open2 < 0 then some (e.open2, ost)
    else
      let c := { c with opened := true, frame_size := e.frame_size,
                        time_base := e.time_base }
      let nb_samples : Int := if codec.variable_frame_size then 10000 else c.frame_size
      let ost := { ost with enc := some c,
                            frame := alloc_audio_frame nb_samples e.frame,
                            tmp_frame := alloc_audio_frame nb_samples e.tmp_frame }
      match ost.st with
      | none => none
      | some st =>
        if e.parameters_from_context < 0 then some (e.parameters_from_context, ost)
        else
          let ost := { ost with st := some { st with codecpar_set := true } }
          if !e.swr_alloc then some (-1, { ost with swr_ctx := false })
          else
            let ost := { ost with swr_ctx := true }
            if e.swr_init < 0 then some (e.swr_init, ost)
            else some (0, ost)
  | _, _ => none

/-- Scripted responses of the library calls in `open_video`. -/
structure OpenVideoEnv where
  /-- Return value of `avcodec_open2`. -/
  open2 : Int
  /-- Result of `alloc_picture` for the encoder-format frame. -/
  picture : Option AVFrame
  /-- Result of `alloc_picture` for the RGB24 frame. -/
  tmp_picture : Option AVFrame
  /-- Return value of `avcodec_parameters_from_context`. -/
  parameters_from_context : Int
deriving DecidableEq, Repr

/-- Function `open_video` (lines 380-420). -/
def open_video (ost : OutputStream) (e : OpenVideoEnv) : Option (Int × OutputStream) :=
  match ost.enc with
  | none => none
  | some c =>
    if e.open2 < 0 then some (e.open2, ost)
    else
      let ost := { ost with enc := some { c with opened := true }, frame := e.picture }
      if ost.frame.isNone then some (-1, ost)
      else
        let ost := { ost with tmp_frame := e.tmp_picture }
        if ost.tmp_frame.isNone then some (-1, ost)
        else
          match ost.st with
          | none => none
          | some st =>
            if e.parameters_from_context < 0 then some (e.parameters_from_context, ost)
            else some (0, { ost with st := some { st with codecpar_set := true } })

/-- Scripted responses of the library calls in `streaming_init`. -/
structure InitEnv where
  /-- Whether `avformat_alloc_output_context2` sets `ctx->oc`. -/
  alloc_output_context : Bool
  /-- Whether `fmt->video_codec != AV_CODEC_ID_NONE`. -/
  has_video_codec : Bool
  /-- Whether `fmt->audio_codec != AV_CODEC_ID_NONE`. -/
  has_audio_codec : Bool
  /-- Whether `fmt->flags` has `AVFMT_GLOBALHEADER`. -/
  globalheader : Bool
  /-- Whether `fmt->flags` has `AVFMT_NOFILE`. -/
  nofile : Bool
  video : StreamEnv
  audio : StreamEnv
  open_video : OpenVideoEnv
  open_audio : OpenAudioEnv
  /-- Return value of `avio_open`. -/
  avio_open : Int
  /-- Return value of `avformat_write_header`. -/
  write_header : Int
deriving DecidableEq, Repr

/-- Function `streaming_init` (lines 511-561).  Also returns the results of
the four setup calls whose return values the function drops, in call order
(`none` for an `add_stream` that was skipped). -/
def streaming_init (L : Lib) (ctx : StreamContext) (e : InitEnv) :
    Option (Int × StreamContext × List (Option Int)) :=
  let ctx := { ctx with frames := 0, bufferedAudio := 0 }
  let ctx := { ctx with oc := e.alloc_output_context, nb_streams := 0 }
  if !ctx.oc then some (1, ctx, [])
  else
    let video :=
      if e.has_video_codec then
        (add_stream L ctx.video_st ctx.nb_streams e.globalheader
            ctx.width ctx.height ctx.fps e.video).map
          (fun r => (some r.1, r.2.1, r.2.2.1, r.2.2.2))
      else some (none, ctx.video_st, ctx.video_codec, ctx.nb_streams)
    match video with
    | none => none
    | some (rv, video_st, video_codec, nb_streams) =>
      let ctx := { ctx with video_st := video_st, video_codec := video_codec,
                            nb_streams := nb_streams }
      let audio :=
        if e.has_audio_codec then
          (add_stream L ctx.audio_st ctx.nb_streams e.globalheader
              ctx.width ctx.height ctx.fps e.audio).map
            (fun r => (some r.1, r.2.1, r.2.2.1, r.2.2.2))
        else some (none, ctx.audio_st, ctx.audio_codec, ctx.nb_streams)
      match audio with
      | none => none
      | some (ra, audio_st, audio_codec, nb_streams) =>
        let ctx := { ctx with audio_st := audio_st, audio_codec := audio_codec,
                              nb_streams := nb_streams }
        match open_video ctx.video_st e.open_video with
        | none => none
        | some (rov, video_st) =>
          let ctx := { ctx with video_st := video_st }
          match open_audio ctx.audio_codec ctx.audio_st e.open_audio with
          | none => none
          | some (roa, audio_st) =>
            let ctx := { ctx with audio_st := audio_st }
            let dropped := [rv, ra, some rov, some roa]
            if !e.nofile && e.avio_open < 0 then some (1, ctx, dropped)
            else if e.write_header < 0 then some (1, ctx, dropped)
            else some (0, ctx, dropped)

/-! ## Teardown -/

/-- Function `close_stream` (lines 497-508). -/
def close_stream (k : Kind) (ost : OutputStream) : OutputStream × List Event :=
  ({ ost with enc := none, frame := none, tmp_frame := none,
              sws_ctx := false, swr_ctx := false, pkt := false },
   [Event.close_stream k])

/-- Function `streaming_cleanup` (lines 563-581); `av_write_trailer` needs a
container context. -/
def streaming_cleanup (ctx : StreamContext) : Option (Int × StreamContext × List Event) :=
  if !ctx.oc then none
  else
    let trailer := [Event.write_trailer]
    let v := close_stream Kind.video ctx.video_st
    let a := close_stream Kind.audio ctx.audio_st
    some (0, { ctx with video_st := v.1, audio_st := a.1, oc := false },
          trailer ++ v.2 ++ a.2 ++ [Event.free_context])

/-! ## Concrete instances used by the examples -/

/-- An instance of the library values: the Linux error codes, stereo = 3,
round-to-nearest and round-up rescaling of non-negative counts. -/
def sampleLib : Lib where
  AVERROR_EAGAIN := -11
  AVERROR_EOF := -541478725
  AV_CH_LAYOUT_STEREO := 3
  AV_SAMPLE_FMT_S16 := 1
  AV_PIX_FMT_YUV420P := 0
  av_get_channel_layout_nb_channels := fun l => if l = 3 then 2 else 1
  av_rescale_q := fun a bq cq =>
    (2 * a * (bq.num * cq.den) + bq.den * cq.num) / (2 * (bq.den * cq.num))
  av_rescale_rnd_up := fun a b c => (a * b + c - 1) / c

/-- A codec context as an opened 44.1 kHz stereo encoder would hold it. -/
def sampleEnc : AVCodecContext where
  sample_fmt := 1
  bit_rate := 64000
  sample_rate := 44100
  channel_layout := 3
  channels := 2
  width := 320
  height := 240
  time_base := ⟨1, 44100⟩
  gop_size := 12
  pix_fmt := 0
  frame_size := 2
  global_header := false
  opened := true

/-- An opened pipeline whose frames hold `nb_samples` samples; both frame
buffers are `4 * nb_samples` zero bytes. -/
def sampleStream (nb_samples : Nat) : OutputStream where
  st := some { id := 0, time_base := ⟨1, 44100⟩, codecpar_set := true }
  enc := some sampleEnc
  next_pts := 0
  samples_count := 0
  frame := some { pts := 0, nb_samples := nb_samples, data := List.replicate (4 * nb_samples) 0 }
  tmp_frame := some { pts := 0, nb_samples := nb_samples, data := List.replicate (4 * nb_samples) 0 }
  sws_ctx := false
  swr_ctx := true
  pkt := true

/-- An opened session, with an empty accumulator, whose audio frame holds
`nb_samples` samples. -/
def sampleCtx (nb_samples : Nat) : StreamContext where
  oc := true
  nb_streams := 2
  audio_codec := none
  video_codec := none
  video_st := sampleStream nb_samples
  audio_st := sampleStream nb_samples
  width := 320
  height := 240
  fps := 25
  bufferedAudio := 0
  frames := 0

/-- Responses of an audio encode call in which every step succeeds and the
encoder asks for more input at once. -/
def quietAudio : AudioEnv where
  delay := 0
  make_writable := 0
  swr_convert := 0
  send := 0
  got_packet := false
  script := [⟨-11, 0⟩]

/-- Responses of a video encode call in which every step succeeds, one
packet comes out and is written, and the encoder then asks for more input. -/
def quietVideo : VideoEnv where
  frame := ⟨0, true⟩
  send := 0
  script := [⟨0, 0⟩, ⟨-11, 0⟩]

/-- A response that ends the receive loop: the encoder has no packet (not
ready, drained, or failed) or the write of the packet it produced fails. -/
@[reducible] def stops (L : Lib) (s : PumpStep) : Prop :=
  s.receive = L.AVERROR_EAGAIN ∨ s.receive = L.AVERROR_EOF ∨ s.receive < 0 ∨ s.write < 0

/-- The responses let a call of `write_audio_frame` return: a step before the
receive loop fails, or the loop meets a response that ends it. -/
@[reducible] def audio_returns (L : Lib) (e : AudioEnv) : Prop :=
  e.make_writable < 0 ∨ e.swr_convert < 0 ∨ e.send < 0 ∨ ∃ s ∈ e.script, stops L s

/-- The audio pipeline of the session is open with a source frame of `n`
samples (capacity `4 * n` bytes, all inside the buffer object) and the
accumulator is empty. -/
@[reducible] def audio_ready (n : Nat) (ctx : StreamContext) : Prop :=
  ctx.audio_st.enc.isSome ∧ ctx.audio_st.frame.isSome ∧
  (∃ tmp, ctx.audio_st.tmp_frame = some tmp ∧ tmp.nb_samples = (n : Int) ∧
    4 * n ≤ tmp.data.length) ∧
  ctx.bufferedAudio = 0

/-- Frame preparation succeeds in every call of the run: each
`av_frame_make_writable` succeeds and, as long as no conversion context
exists (`sws_ctx`), `sws_getContext` returns one. -/
def frames_prepare : Bool → List VideoEnv → Bool
  | _, [] => true
  | sws_ctx, e :: rest =>
    decide (0 ≤ e.frame.make_writable) && (sws_ctx || e.frame.sws_getContext) &&
      frames_prepare true rest

/-- The stream has the objects that an opened pipeline owns: codec context,
encoder-format frame and source-format frame. -/
@[reducible] def opened (ost : OutputStream) : Prop :=
  ost.enc.isSome ∧ ost.frame.isSome ∧ ost.tmp_frame.isSome

/-- The selection rule in the words of the specification: the preferred
default when it occurs in the advertised list, otherwise the first entry of
the list; the preferred default when no list is advertised.  The advertised
list is the array up to its zero terminator, and the first entry is `arr[0]`. -/
def spec_select (preferred : Int) : Option (List Int) → Int
  | none => preferred
  | some arr => if preferred ∈ arr.takeWhile (fun x => x ≠ 0) then preferred else arr.headD 0

/-- The trace shows a flush of pipeline `k` ahead of the trailer: before
`av_write_trailer` a `NULL` frame was sent to the encoder of `k` and that
encoder reported end of stream. -/
def flushed_before_trailer (L : Lib) (k : Kind) (tr : List Event) : Prop :=
  ∃ pre post, tr = pre ++ Event.write_trailer :: post ∧
    (∃ ret, Event.send_frame k none ret ∈ pre) ∧
    Event.receive_packet k L.AVERROR_EOF ∈ pre

/-- A session before `streaming_init`: no handle is set; 320x240 at 25 fps. -/
def freshCtx : StreamContext where
  oc := false
  nb_streams := 0
  audio_codec := none
  video_codec := none
  video_st := ⟨none, none, 0, 0, none, none, false, false, false⟩
  audio_st := ⟨none, none, 0, 0, none, none, false, false, false⟩
  width := 320
  height := 240
  fps := 25
  bufferedAudio := 0
  frames := 0

/-- An audio encoder that advertises S16, the rates 48000 and 44100 Hz, and
mono (4) as its only layout, with a fixed frame size. -/
def sampleAudioCodec : AVCodec where
  type := AVMediaType.audio
  sample_fmts := some [1, 0]
  supported_samplerates := some [48000, 44100, 0]
  channel_layouts := some [4, 0]
  variable_frame_size := false

/-- A video encoder. -/
def sampleVideoCodec : AVCodec where
  type := AVMediaType.video
  sample_fmts := none
  supported_samplerates := none
  channel_layouts := none
  variable_frame_size := false

/-- Responses of an `add_stream` in which every library call succeeds. -/
def sampleStreamEnv (codec : AVCodec) : StreamEnv where
  find_encoder := some codec
  new_stream := some { id := 0, time_base := ⟨0, 1⟩, codecpar_set := false }
  alloc_context3 := some { sampleEnc with sample_rate := 0, channel_layout := 0, channels := 0,
                                          time_base := ⟨0, 1⟩, opened := false }
  packet_alloc := true

/-- Responses of a `streaming_init` in which every library call succeeds. -/
def sampleInit : InitEnv where
  alloc_output_context := true
  has_video_codec := true
  has_audio_codec := true
  globalheader := false
  nofile := false
  video := sampleStreamEnv sampleVideoCodec
  audio := sampleStreamEnv sampleAudioCodec
  open_video := ⟨0, some ⟨0, 0, []⟩, some ⟨0, 0, []⟩, 0⟩
  open_audio := ⟨0, 2, ⟨1, 44100⟩, ⟨true, 0, List.replicate 8 0⟩,
    ⟨true, 0, List.replicate 8 0⟩, 0, true, 0⟩
  avio_open := 0
  write_header := 0

/-! ## Theorems -/

/-! ### Encoder pump -/

theorem encode_loop_none (L : Lib) (k : Kind) (frame : Bool) :
    ∀ (script : List PumpStep) (ret : Int) (got : Bool), 0 ≤ ret →
      (∀ s ∈ script, ¬ stops L s) → encode_loop L k frame script ret got = none := by
  intro script
  induction script with
  | nil => intro ret got h _; simp [encode_loop, h]
  | cons s rest ih =>
    intro ret got h hs
    have h1 := hs s (List.mem_cons_self _ _)
    simp only [stops, not_or] at h1
    obtain ⟨ha, hb, hc, hd⟩ := h1
    have hrest := ih 0 true (le_refl _) (fun t ht => hs t (List.mem_cons_of_mem _ ht))
    simp [encode_loop, h, ha, hb, hc, hd, write_frame, hrest]

theorem encode_loop_spec (L : Lib) (k : Kind) (frame : Bool) :
    ∀ (script : List PumpStep) (ret : Int) (got : Bool), 0 ≤ ret →
      (∃ s ∈ script, stops L s) →
      ∃ r evs, encode_loop L k frame script ret got = some (r, evs) ∧
        (r = 0 ∨ r = -1) ∧
        (r = -1 ↔
          (∃ x, Event.receive_packet k x ∈ evs ∧ x < 0 ∧
              x ≠ L.AVERROR_EAGAIN ∧ x ≠ L.AVERROR_EOF) ∨
          (∃ w, Event.interleaved_write k w ∈ evs ∧ w < 0)) ∧
        (∀ w, Event.interleaved_write k w ∈ evs → w < 0 →
          evs.getLast? = some (Event.interleaved_write k w)) ∧
        (∀ ev ∈ evs, ∃ x, ev = Event.receive_packet k x ∨ ev = Event.interleaved_write k x) := by
  intro script
  induction script with
  | nil => intro ret got _ hs; obtain ⟨s, hs, _⟩ := hs; simp at hs
  | cons s rest ih =>
    intro ret got h hs
    by_cases h1 : s.receive = L.AVERROR_EAGAIN ∨ s.receive = L.AVERROR_EOF
    · refine ⟨0, [Event.receive_packet k s.receive], ?_, Or.inl rfl, ?_, ?_, ?_⟩
      · simp [encode_loop, h, h1]
      · constructor
        · intro h0; omega
        · rintro (⟨x, hx, _, hx2, hx3⟩ | ⟨w, hw, _⟩)
          · simp at hx; subst hx; rcases h1 with h1 | h1 <;> contradiction
          · simp at hw
      · intro w hw; simp at hw
      · intro ev hev; simp at hev; exact ⟨_, Or.inl hev⟩
    · by_cases h2 : s.receive < 0
      · refine ⟨-1, [Event.receive_packet k s.receive], ?_, Or.inr rfl, ?_, ?_, ?_⟩
        · simp [encode_loop, h, h1, h2]
        · simp only [true_iff]
          left
          simp only [not_or] at h1
          exact ⟨_, List.mem_singleton_self _, h2, h1.1, h1.2⟩
        · intro w hw; simp at hw
        · intro ev hev; simp at hev; exact ⟨_, Or.inl hev⟩
      · by_cases h3 : s.write < 0
        · refine ⟨-1, [Event.receive_packet k s.receive, Event.interleaved_write k s.write],
            ?_, Or.inr rfl, ?_, ?_, ?_⟩
          · simp [encode_loop, h, h1, h2, h3, write_frame]
          · simp only [true_iff]
            right
            exact ⟨_, by simp, h3⟩
          · intro w hw _
            simp at hw
            subst hw
            simp
          · intro ev hev
            simp at hev
            rcases hev with hev | hev
            · exact ⟨_, Or.inl hev⟩
            · exact ⟨_, Or.inr hev⟩
        · have hs2 : ∃ t ∈ rest, stops L t := by
            obtain ⟨t, ht, hst⟩ := hs
            rcases List.mem_cons.mp ht with ht | ht
            · subst ht
              exfalso
              rcases hst with hst | hst | hst | hst
              · exact h1 (Or.inl hst)
              · exact h1 (Or.inr hst)
              · exact h2 hst
              · exact h3 hst
            · exact ⟨t, ht, hst⟩
          obtain ⟨r, evs, he, hr, hiff, hlast, hkind⟩ := ih 0 true (le_refl _) hs2
          refine ⟨r, Event.receive_packet k s.receive :: Event.interleaved_write k s.write :: evs,
            ?_, hr, ?_, ?_, ?_⟩
          · simp [encode_loop, h, h1, h2, h3, write_frame, he]
          · rw [hiff]
            constructor
            · rintro (⟨x, hx, hx1⟩ | ⟨w, hw, hw1⟩)
              · exact Or.inl ⟨x, by simp [hx], hx1⟩
              · exact Or.inr ⟨w, by simp [hw], hw1⟩
            · rintro (⟨x, hx, hx1⟩ | ⟨w, hw, hw1⟩)
              · simp at hx
                rcases hx with hx | hx
                · subst hx; exact absurd hx1.1 h2
                · exact Or.inl ⟨x, hx, hx1⟩
              · simp at hw
                rcases hw with hw | hw
                · subst hw; exact absurd hw1 h3
                · exact Or.inr ⟨w, hw, hw1⟩
          · intro w hw hw1
            simp at hw
            rcases hw with hw | hw
            · subst hw; exact absurd hw1 h3
            · have := hlast w hw hw1
              cases evs with
              | nil => simp at hw
              | cons a as => simpa [List.getLast?_cons_cons] using this
          · intro ev hev
            simp at hev
            rcases hev with hev | hev | hev
            · exact ⟨_, Or.inl hev⟩
            · exact ⟨_, Or.inr hev⟩
            · exact hkind ev hev

/-! ### Video path -/

theorem get_video_frame_cases (ost : OutputStream) (e : FrameEnv) (ho : opened ost) :
    get_video_frame ost e = some (none, ost) ∨
    ∃ f, ost.frame = some f ∧
      get_video_frame ost e =
        some (some { f with pts := ost.next_pts },
              { ost with sws_ctx := true, frame := some { f with pts := ost.next_pts },
                         next_pts := wrap64 (ost.next_pts + 1) }) := by
  obtain ⟨h1, h2, h3⟩ := ho
  obtain ⟨c, hc⟩ := Option.isSome_iff_exists.mp h1
  obtain ⟨f, hf⟩ := Option.isSome_iff_exists.mp h2
  obtain ⟨t, ht⟩ := Option.isSome_iff_exists.mp h3
  unfold get_video_frame
  simp only [hc, hf, ht]
  by_cases hm : e.make_writable < 0
  · left; simp [hm]
  · by_cases hw : (!ost.sws_ctx && !e.sws_getContext) = true
    · left; simp only [hm, hw]; simp
    · right
      exact ⟨f, rfl, by simp only [hm, hw]; simp⟩

theorem write_video_frame_eq (L : Lib) (ost ost2 : OutputStream) (e : VideoEnv)
    (fr : Option AVFrame) (h : get_video_frame ost e.frame = some (fr, ost2)) :
    write_video_frame L ost e =
      if e.send < 0 then
        some (e.send, ost2, [Event.send_frame Kind.video (fr.map AVFrame.pts) e.send])
      else
        match encode_loop L Kind.video fr.isSome e.script e.send false with
        | none => none
        | some (r, evs) =>
          some (r, ost2, Event.send_frame Kind.video (fr.map AVFrame.pts) e.send :: evs) := by
  unfold write_video_frame
  rw [h]

/-- C3 (the code departs from the claim): a call of `write_video_frame` whose
frame preparation fails submits a `NULL` frame; when the encoder then reports
end of stream the call returns 0, not 1, and it returns the same 0 when the
encoder reports that it is not ready.  The receive loop of
`write_audio_frame`, entered with a `NULL` frame and no packet seen, returns
0 on end of stream as well. -/
theorem write_video_frame_eof_returns_zero :
    (write_video_frame sampleLib (sampleStream 2) ⟨⟨-1, true⟩, 0, [⟨-541478725, 0⟩]⟩).map
        (fun r => (r.1, r.2.2)) =
      some (0, [Event.send_frame Kind.video none 0,
                Event.receive_packet Kind.video (-541478725)]) ∧
    (write_video_frame sampleLib (sampleStream 2) ⟨⟨-1, true⟩, 0, [⟨-11, 0⟩]⟩).map
        (fun r => (r.1, r.2.2)) =
      some (0, [Event.send_frame Kind.video none 0,
                Event.receive_packet Kind.video (-11)]) ∧
    encode_loop sampleLib Kind.audio false [⟨-541478725, 0⟩] 0 false =
      some (0, [Event.receive_packet Kind.audio (-541478725)]) := by
  decide

/-- C4: for an opened video pipeline and every script of encoder and muxer
responses that contains a response ending the receive loop (or whose frame
submission fails), `write_video_frame` returns; its result is negative
exactly when the submission failed, or a packet request that was made failed
with a code other than EAGAIN and EOF, or a write that was made failed; every
other result is 0; and a failed write is the last call of the invocation.  On
a script without such a response the loop is still running when it ends. -/
theorem write_video_frame_error_iff (L : Lib) (ost : OutputStream) (e : VideoEnv)
    (ho : opened ost) :
    (e.send < 0 ∨ (∃ s ∈ e.script, stops L s) →
      ∃ r ost2 tr, write_video_frame L ost e = some (r, ost2, tr) ∧
        (r < 0 ↔
          e.send < 0 ∨
          (∃ x, Event.receive_packet Kind.video x ∈ tr ∧ x < 0 ∧
              x ≠ L.AVERROR_EAGAIN ∧ x ≠ L.AVERROR_EOF) ∨
          (∃ w, Event.interleaved_write Kind.video w ∈ tr ∧ w < 0)) ∧
        (¬ r < 0 → r = 0) ∧
        (∀ w, Event.interleaved_write Kind.video w ∈ tr → w < 0 →
          tr.getLast? = some (Event.interleaved_write Kind.video w))) ∧
    (¬ (e.send < 0 ∨ ∃ s ∈ e.script, stops L s) → write_video_frame L ost e = none) := by
  have hg : ∃ fr ost2, get_video_frame ost e.frame = some (fr, ost2) := by
    rcases get_video_frame_cases ost e.frame ho with h | ⟨f, _, h⟩
    · exact ⟨_, _, h⟩
    · exact ⟨_, _, h⟩
  obtain ⟨fr, ost2, hg⟩ := hg
  rw [write_video_frame_eq L ost ost2 e fr hg]
  constructor
  · intro hs
    by_cases h1 : e.send < 0
    · refine ⟨e.send, ost2, [Event.send_frame Kind.video (fr.map AVFrame.pts) e.send],
        by simp [h1], ?_, ?_, ?_⟩
      · simp [h1]
      · intro h; exact absurd h1 h
      · intro w hw; simp at hw
    · have hs2 : ∃ s ∈ e.script, stops L s := hs.resolve_left h1
      obtain ⟨r, evs, he, hr, hiff, hlast, _⟩ :=
        encode_loop_spec L Kind.video fr.isSome e.script e.send false (not_lt.mp h1) hs2
      refine ⟨r, ost2, Event.send_frame Kind.video (fr.map AVFrame.pts) e.send :: evs,
        by simp [h1, he], ?_, ?_, ?_⟩
      · have hneg : r < 0 ↔ r = -1 := by
          rcases hr with hr | hr <;> subst hr <;> simp
        rw [hneg, hiff]
        simp [h1]
      · intro h
        rcases hr with hr | hr
        · exact hr
        · subst hr; simp at h
      · intro w hw hw1
        simp at hw
        have := hlast w hw hw1
        cases evs with
        | nil => simp at hw
        | cons a as => simpa [List.getLast?_cons_cons] using this
  · intro hs
    have hs1 : ¬ e.send < 0 := fun h => hs (Or.inl h)
    have := encode_loop_none L Kind.video fr.isSome e.script e.send false
      (not_lt.mp hs1) (fun s hmem hst => hs (Or.inr ⟨s, hmem, hst⟩))
    simp [hs1, this]

/-- Instance of C4: one packet is produced and written, then the encoder is
not ready; the call returns 0. -/
theorem write_video_frame_error_iff_witness :
    opened (sampleStream 2) ∧
    ∃ r ost2 tr, write_video_frame sampleLib (sampleStream 2) quietVideo = some (r, ost2, tr) ∧
      (r < 0 ↔
        quietVideo.send < 0 ∨
        (∃ x, Event.receive_packet Kind.video x ∈ tr ∧ x < 0 ∧
            x ≠ sampleLib.AVERROR_EAGAIN ∧ x ≠ sampleLib.AVERROR_EOF) ∨
        (∃ w, Event.interleaved_write Kind.video w ∈ tr ∧ w < 0)) ∧
      (¬ r < 0 → r = 0) ∧
      (∀ w, Event.interleaved_write Kind.video w ∈ tr → w < 0 →
        tr.getLast? = some (Event.interleaved_write Kind.video w)) :=
  ⟨by decide,
   (write_video_frame_error_iff sampleLib (sampleStream 2) quietVideo (by decide)).1
     (Or.inr (by decide))⟩

theorem wrap64_of_range (x : Int) (h1 : -9223372036854775808 ≤ x)
    (h2 : x ≤ 9223372036854775807) : wrap64 x = x := by
  unfold wrap64
  omega

theorem sent_pts_append (k : Kind) (a b : List Event) :
    sent_pts k (a ++ b) = sent_pts k a ++ sent_pts k b := by
  induction a with
  | nil => simp [sent_pts]
  | cons ev rest ih =>
    cases ev <;> simp [sent_pts, ih]
    split <;> simp

theorem sent_pts_send (k : Kind) (pts : Option Int) (r : Int) (rest : List Event) :
    sent_pts k (Event.send_frame k pts r :: rest) = pts :: sent_pts k rest := by
  simp [sent_pts]

theorem sent_pts_of_loop (k k2 : Kind) (evs : List Event)
    (h : ∀ ev ∈ evs, ∃ x, ev = Event.receive_packet k2 x ∨ ev = Event.interleaved_write k2 x) :
    sent_pts k evs = [] := by
  induction evs with
  | nil => simp [sent_pts]
  | cons ev rest ih =>
    have ih2 := ih (fun ev2 h2 => h ev2 (List.mem_cons_of_mem _ h2))
    obtain ⟨x, hx | hx⟩ := h ev (List.mem_cons_self _ _) <;> subst hx <;> simp [sent_pts, ih2]

theorem write_video_frame_total (L : Lib) (ost : OutputStream) (e : VideoEnv)
    (ho : opened ost) (hs : e.send < 0 ∨ ∃ s ∈ e.script, stops L s) :
    ∃ fr ost2 r evs, get_video_frame ost e.frame = some (fr, ost2) ∧
      write_video_frame L ost e =
        some (r, ost2, Event.send_frame Kind.video (fr.map AVFrame.pts) e.send :: evs) ∧
      sent_pts Kind.video evs = [] := by
  have hg : ∃ fr ost2, get_video_frame ost e.frame = some (fr, ost2) := by
    rcases get_video_frame_cases ost e.frame ho with h | ⟨f, _, h⟩
    · exact ⟨_, _, h⟩
    · exact ⟨_, _, h⟩
  obtain ⟨fr, ost2, hg⟩ := hg
  rw [write_video_frame_eq L ost ost2 e fr hg]
  by_cases h1 : e.send < 0
  · exact ⟨fr, ost2, e.send, [], hg, by simp [h1], by simp [sent_pts]⟩
  · obtain ⟨r, evs, he, _, _, _, hkind⟩ :=
      encode_loop_spec L Kind.video fr.isSome e.script e.send false (not_lt.mp h1)
        (hs.resolve_left h1)
    exact ⟨fr, ost2, r, evs, hg, by simp [h1, he], sent_pts_of_loop _ _ _ hkind⟩

theorem get_video_frame_ok (ost : OutputStream) (e : FrameEnv) (ho : opened ost)
    (hm : 0 ≤ e.make_writable) (hs : (ost.sws_ctx || e.sws_getContext) = true) :
    ∃ f, ost.frame = some f ∧
      get_video_frame ost e =
        some (some { f with pts := ost.next_pts },
              { ost with sws_ctx := true, frame := some { f with pts := ost.next_pts },
                         next_pts := wrap64 (ost.next_pts + 1) }) := by
  rcases get_video_frame_cases ost e ho with h | h
  · exfalso
    obtain ⟨h1, h2, h3⟩ := ho
    obtain ⟨c, hc⟩ := Option.isSome_iff_exists.mp h1
    obtain ⟨f, hf⟩ := Option.isSome_iff_exists.mp h2
    obtain ⟨t, ht⟩ := Option.isSome_iff_exists.mp h3
    have hm2 : ¬ e.make_writable < 0 := not_lt.mpr hm
    have hs2 : ¬ (!ost.sws_ctx && !e.sws_getContext) = true := by
      cases h4 : ost.sws_ctx <;> cases h5 : e.sws_getContext <;> simp [h4, h5] at hs ⊢
    unfold get_video_frame at h
    simp only [hc, hf, ht, hm2, hs2, ↓reduceIte, Bool.false_eq_true, Option.some.injEq,
      Prod.mk.injEq] at h
    simp at h
  · exact h

/-- C7: a `get_video_frame` that returns a frame stamps it with the value
`next_pts` had on entry and leaves `next_pts` one higher (for every value
whose successor is an `int64_t`), and on an opened pipeline it does return a
frame whenever `av_frame_make_writable` succeeds and a conversion context
exists or can be created; and every run of `n` `streaming_video` calls on an
opened pipeline, each with successful frame preparation and terminating
encoder responses, returns having handed the encoder exactly `n` frames,
with the timestamps `p, p+1, ..., p+n-1`, where `p` is `next_pts` at the
start, and leaves `next_pts = p + n`. -/
theorem video_pts_consecutive :
    (∀ (ost : OutputStream) (e : FrameEnv) (f : AVFrame) (ost2 : OutputStream),
      get_video_frame ost e = some (some f, ost2) →
      -9223372036854775808 ≤ ost.next_pts → ost.next_pts < 9223372036854775807 →
      f.pts = ost.next_pts ∧ ost2.frame = some f ∧ ost2.next_pts = ost.next_pts + 1) ∧
    (∀ (ost : OutputStream) (e : FrameEnv),
      opened ost → 0 ≤ e.make_writable → (ost.sws_ctx || e.sws_getContext) = true →
      -9223372036854775808 ≤ ost.next_pts → ost.next_pts < 9223372036854775807 →
      ∃ f ost2, get_video_frame ost e = some (some f, ost2) ∧
        f.pts = ost.next_pts ∧ ost2.frame = some f ∧ ost2.next_pts = ost.next_pts + 1) ∧
    (∀ (L : Lib) (envs : List VideoEnv) (ctx : StreamContext),
      opened ctx.video_st →
      (∀ e ∈ envs, e.send < 0 ∨ ∃ s ∈ e.script, stops L s) →
      frames_prepare ctx.video_st.sws_ctx envs = true →
      -9223372036854775808 ≤ ctx.video_st.next_pts →
      ctx.video_st.next_pts + envs.length ≤ 9223372036854775807 →
      ∃ ctx2 tr, video_session L ctx envs = some (ctx2, tr) ∧
        sent_pts Kind.video tr =
          (List.range envs.length).map
            (fun (i : Nat) => some (ctx.video_st.next_pts + (i : Int))) ∧
        ctx2.video_st.next_pts = ctx.video_st.next_pts + envs.length) := by
  have part1 : ∀ (ost : OutputStream) (e : FrameEnv) (f : AVFrame) (ost2 : OutputStream),
      get_video_frame ost e = some (some f, ost2) →
      -9223372036854775808 ≤ ost.next_pts → ost.next_pts < 9223372036854775807 →
      f.pts = ost.next_pts ∧ ost2.frame = some f ∧ ost2.next_pts = ost.next_pts + 1 := by
    intro ost e f ost2 h hlo hhi
    have hw : wrap64 (ost.next_pts + 1) = ost.next_pts + 1 :=
      wrap64_of_range _ (by omega) (by omega)
    unfold get_video_frame at h
    by_cases hm : e.make_writable < 0 <;>
      by_cases hsw : (!ost.sws_ctx && !e.sws_getContext) = true <;>
      rcases hfr : ost.frame with _ | fr <;>
      rcases hen : ost.enc with _ | c <;>
      rcases htm : ost.tmp_frame with _ | t <;>
      try (simp [hfr, hen, htm, hm, hsw] at h; done)
    simp only [hfr, hen, htm, hm, hsw, ↓reduceIte, Bool.false_eq_true, Option.some.injEq,
      Prod.mk.injEq] at h
    obtain ⟨h1, h2⟩ := h
    subst h1
    subst h2
    simp [hw]
  refine ⟨part1, ?_, ?_⟩
  · intro ost e ho hm hs hlo hhi
    obtain ⟨f, _, h⟩ := get_video_frame_ok ost e ho hm hs
    exact ⟨_, _, h, part1 ost e _ _ h hlo hhi⟩
  · intro L envs
    induction envs with
    | nil =>
      intro ctx _ _ _ _ _
      exact ⟨ctx, [], rfl, by simp [sent_pts]⟩
    | cons e rest ih =>
      intro ctx ho hs hprep hlo hhi
      simp only [List.length_cons, Nat.cast_add, Nat.cast_one] at hhi
      simp only [frames_prepare, Bool.and_eq_true, decide_eq_true_eq] at hprep
      obtain ⟨⟨hmw, hsws⟩, hprep2⟩ := hprep
      obtain ⟨fr, ost2, r, evs, hg, hw, hsent⟩ :=
        write_video_frame_total L ctx.video_st e ho (hs e (List.mem_cons_self _ _))
      have hrest : ∀ e2 ∈ rest, e2.send < 0 ∨ ∃ s ∈ e2.script, stops L s :=
        fun e2 h2 => hs e2 (List.mem_cons_of_mem _ h2)
      obtain ⟨f, hf, h⟩ := get_video_frame_ok ctx.video_st e.frame ho hmw hsws
      rw [h] at hg
      simp only [Option.some.injEq, Prod.mk.injEq] at hg
      obtain ⟨hfr, host⟩ := hg
      subst hfr
      subst host
      have hwrap : wrap64 (ctx.video_st.next_pts + 1) = ctx.video_st.next_pts + 1 :=
        wrap64_of_range _ (by omega) (by omega)
      have ho2 : opened { ctx.video_st with
          sws_ctx := true, frame := some { f with pts := ctx.video_st.next_pts },
          next_pts := wrap64 (ctx.video_st.next_pts + 1) } := ⟨ho.1, rfl, ho.2.2⟩
      obtain ⟨ctx2, tr2, hses, hp1, hp2⟩ :=
        ih { ctx with video_st := { ctx.video_st with
          sws_ctx := true, frame := some { f with pts := ctx.video_st.next_pts },
          next_pts := wrap64 (ctx.video_st.next_pts + 1) } } ho2 hrest hprep2
          (by simp only [hwrap]; omega) (by simp only [hwrap]; omega)
      refine ⟨ctx2,
        Event.send_frame Kind.video (some ctx.video_st.next_pts) e.send :: evs ++ tr2,
        by simp only [video_session, streaming_video, hw, hses, Option.map_some'], ?_⟩
      rw [List.cons_append, sent_pts_send, sent_pts_append, hsent, List.nil_append]
      simp only [hwrap] at hp1 hp2
      constructor
      · rw [hp1, List.length_cons, List.range_succ_eq_map]
        simp only [List.map_cons, List.map_map, Nat.cast_zero, add_zero, List.cons.injEq,
          true_and]
        apply List.map_congr_left
        intro i _
        simp only [Function.comp, Nat.cast_succ]
        congr 1
        ring
      · rw [hp2]
        simp only [List.length_cons, Nat.cast_add, Nat.cast_one]
        ring

/-- Instance of C7: on an opened pipeline with `next_pts = 0` a frame is
prepared, stamped 0, and leaves `next_pts = 1`; the 25 calls of a session
that starts with `next_pts = 0` hand the encoder 25 frames with the
timestamps 0, 1, ..., 24 and leave `next_pts = 25`. -/
theorem video_pts_consecutive_witness :
    (∃ f ost2, get_video_frame (sampleStream 2) ⟨0, true⟩ = some (some f, ost2) ∧
      f.pts = 0 ∧ ost2.frame = some f ∧ ost2.next_pts = 1) ∧
    (∃ ctx2 tr,
      video_session sampleLib (sampleCtx 2) (List.replicate 25 quietVideo) = some (ctx2, tr) ∧
      sent_pts Kind.video tr =
        [some 0, some 1, some 2, some 3, some 4, some 5, some 6, some 7, some 8, some 9,
         some 10, some 11, some 12, some 13, some 14, some 15, some 16, some 17, some 18,
         some 19, some 20, some 21, some 22, some 23, some 24] ∧
      ctx2.video_st.next_pts = 25) := by
  constructor
  · obtain ⟨f, ost2, h, h1, h2, h3⟩ :=
      video_pts_consecutive.2.1 (sampleStream 2) ⟨0, true⟩ (by decide) (by decide)
        (by decide) (by decide) (by decide)
    exact ⟨f, ost2, h, h1, h2, h3⟩
  · obtain ⟨ctx2, tr, h, h1, h2⟩ :=
      video_pts_consecutive.2.2 sampleLib (List.replicate 25 quietVideo) (sampleCtx 2)
        (by decide) (by decide) (by decide) (by decide) (by decide)
    exact ⟨ctx2, tr, h, by rw [h1]; decide, by rw [h2]; decide⟩

/-! ### Audio path -/

theorem encode_loop_events (L : Lib) (k : Kind) (frame : Bool) :
    ∀ (script : List PumpStep) (ret : Int) (got : Bool) (r : Int) (evs : List Event),
      encode_loop L k frame script ret got = some (r, evs) →
      ∀ ev ∈ evs, ∃ x, ev = Event.receive_packet k x ∨ ev = Event.interleaved_write k x := by
  intro script
  induction script with
  | nil =>
    intro ret got r evs h
    by_cases h0 : 0 ≤ ret
    · simp [encode_loop, h0] at h
    · simp only [encode_loop, h0, ↓reduceIte, Option.some.injEq, Prod.mk.injEq] at h
      intro ev hev
      rw [← h.2] at hev
      simp at hev
  | cons s rest ih =>
    intro ret got r evs h
    by_cases h0 : 0 ≤ ret
    · by_cases h1 : s.receive = L.AVERROR_EAGAIN ∨ s.receive = L.AVERROR_EOF
      · simp only [encode_loop, h0, h1, ↓reduceIte, Option.some.injEq, Prod.mk.injEq] at h
        intro ev hev
        rw [← h.2] at hev
        simp at hev
        exact ⟨_, Or.inl hev⟩
      · by_cases h2 : s.receive < 0
        · simp only [encode_loop, h0, h1, h2, ↓reduceIte, Option.some.injEq,
            Prod.mk.injEq] at h
          intro ev hev
          rw [← h.2] at hev
          simp at hev
          exact ⟨_, Or.inl hev⟩
        · by_cases h3 : s.write < 0
          · simp only [encode_loop, h0, h1, h2, h3, write_frame, ↓reduceIte,
              Option.some.injEq, Prod.mk.injEq] at h
            intro ev hev
            rw [← h.2] at hev
            simp at hev
            rcases hev with hev | hev
            · exact ⟨_, Or.inl hev⟩
            · exact ⟨_, Or.inr hev⟩
          · simp only [encode_loop, h0, h1, h2, h3, write_frame, ↓reduceIte] at h
            split at h
            · simp at h
            · rename_i r2 evs2 heq
              simp only [Option.some.injEq, Prod.mk.injEq] at h
              intro ev hev
              rw [← h.2] at hev
              simp at hev
              rcases hev with hev | hev | hev
              · exact ⟨_, Or.inl hev⟩
              · exact ⟨_, Or.inr hev⟩
              · exact ih 0 true r2 evs2 heq ev hev
    · simp only [encode_loop, h0, ↓reduceIte, Option.some.injEq, Prod.mk.injEq] at h
      intro ev hev
      rw [← h.2] at hev
      simp at hev

theorem audio_calls_of_loop (k : Kind) (evs : List Event)
    (h : ∀ ev ∈ evs, ∃ x, ev = Event.receive_packet k x ∨ ev = Event.interleaved_write k x) :
    audio_calls evs = [] := by
  induction evs with
  | nil => simp [audio_calls]
  | cons ev rest ih =>
    have ih2 := ih (fun ev2 h2 => h ev2 (List.mem_cons_of_mem _ h2))
    obtain ⟨x, hx | hx⟩ := h ev (List.mem_cons_self _ _) <;> subst hx <;> simp [audio_calls, ih2]

theorem audio_calls_append (a b : List Event) :
    audio_calls (a ++ b) = audio_calls a ++ audio_calls b := by
  induction a with
  | nil => simp [audio_calls]
  | cons ev rest ih => cases ev <;> simp [audio_calls, ih]

theorem write_audio_frame_cases (L : Lib) (ost : OutputStream) (nb : Int) (e : AudioEnv)
    (c : AVCodecContext) (fr tmp : AVFrame)
    (henc : ost.enc = some c) (hfr : ost.frame = some fr) (htmp : ost.tmp_frame = some tmp)
    (hret : audio_returns L e) :
    ∃ nb2 dst pts ost1,
      nb2 = (if nb = 0 then tmp.nb_samples else nb) ∧
      dst = wrap32 (L.av_rescale_rnd_up (e.delay + nb2) c.sample_rate c.sample_rate) ∧
      pts = L.av_rescale_q ost.samples_count ⟨1, c.sample_rate⟩ c.time_base ∧
      ost1 = { ost with tmp_frame := some { tmp with pts := ost.next_pts },
                        next_pts := wrap64 (ost.next_pts + nb2) } ∧
      ((e.make_writable < 0 ∧
          write_audio_frame L ost nb e =
            some (e.make_writable, ost1, [Event.audio_call nb tmp.data])) ∨
       (0 ≤ e.make_writable ∧ e.swr_convert < 0 ∧
          write_audio_frame L ost nb e =
            some (e.swr_convert, ost1,
              [Event.audio_call nb tmp.data, Event.swr_convert dst e.swr_convert])) ∨
       (0 ≤ e.make_writable ∧ 0 ≤ e.swr_convert ∧ ∃ r evs,
          write_audio_frame L ost nb e =
            some (r, { ost1 with frame := some { fr with pts := pts },
                                 samples_count := wrap32 (ost.samples_count + dst) },
              Event.audio_call nb tmp.data :: Event.swr_convert dst e.swr_convert ::
                Event.send_frame Kind.audio (some pts) e.send :: evs) ∧
          ∀ ev ∈ evs, ∃ x, ev = Event.receive_packet Kind.audio x ∨
            ev = Event.interleaved_write Kind.audio x)) := by
  refine ⟨_, _, _, _, rfl, rfl, rfl, rfl, ?_⟩
  unfold write_audio_frame get_audio_frame
  rw [henc, hfr, htmp]
  by_cases h1 : e.make_writable < 0
  · left
    exact ⟨h1, by simp [h1]⟩
  · by_cases h2 : e.swr_convert < 0
    · right; left
      exact ⟨not_lt.mp h1, h2, by simp [h1, h2]⟩
    · right; right
      refine ⟨not_lt.mp h1, not_lt.mp h2, ?_⟩
      by_cases h3 : e.send < 0
      · exact ⟨e.send, [], by simp [h1, h2, h3], by simp⟩
      · have hs : ∃ s ∈ e.script, stops L s := by
          rcases hret with h | h | h | h
          · exact absurd h h1
          · exact absurd h h2
          · exact absurd h h3
          · exact h
        obtain ⟨r, evs, he, _, _, _, hkind⟩ :=
          encode_loop_spec L Kind.audio true e.script e.send e.got_packet (not_lt.mp h3) hs
        exact ⟨r, evs, by simp [h1, h2, h3, he], hkind⟩

theorem memcpy_some (dst : List Nat) (dOff : Int) (src : List Nat) (sOff n : Int)
    (h : 0 ≤ dOff ∧ 0 ≤ sOff ∧ 0 ≤ n ∧ dOff + n ≤ dst.length ∧ sOff + n ≤ src.length) :
    ∃ buf, memcpy dst dOff src sOff n = some buf ∧ buf.length = dst.length := by
  refine ⟨_, by unfold memcpy; rw [if_pos h], ?_⟩
  simp only [List.length_append, List.length_take, List.length_drop]
  omega

theorem streaming_audio_full_push (L : Lib) (n : Nat) (hcap : 4 * n ≤ 2147483647)
    (ctx : StreamContext) (hctx : audio_ready n ctx) (data : List Nat)
    (hdata : 4 * n ≤ data.length) (e : AudioEnv) (hret : audio_returns L e) :
    ∃ r ctx2 tr, streaming_audio L ctx n data e = some (r, ctx2, tr) ∧
      audio_ready n ctx2 ∧ audio_calls tr = [(n : Int)] := by
  obtain ⟨henc, hfr, ⟨tmp, htmp, hnb, hlen⟩, hbuf⟩ := hctx
  obtain ⟨c, hc⟩ := Option.isSome_iff_exists.mp henc
  obtain ⟨fr, hfr⟩ := Option.isSome_iff_exists.mp hfr
  have e1 : toU32 ((n : Int) * 4) = 4 * (n : Int) := by unfold toU32; omega
  have e2 : wrap32 (tmp.nb_samples * 4) = 4 * (n : Int) := by rw [hnb]; unfold wrap32; omega
  have e3 : wrap32 (min (4 * (n : Int))
      (toU32 (wrap32 (wrap32 (tmp.nb_samples * 4) - ctx.bufferedAudio)))) = 4 * (n : Int) := by
    rw [e2, hbuf]
    have : toU32 (wrap32 (4 * (n : Int) - 0)) = 4 * (n : Int) := by
      unfold toU32 wrap32; omega
    rw [this, min_self]
    unfold wrap32; omega
  obtain ⟨buf, hm, hblen⟩ := memcpy_some tmp.data ctx.bufferedAudio data 0 (4 * (n : Int))
    (by rw [hbuf]; omega)
  have e4 : Int.tdiv (wrap32 (ctx.bufferedAudio + 4 * (n : Int))) 4 = (n : Int) := by
    rw [hbuf]
    have : wrap32 (0 + 4 * (n : Int)) = 4 * (n : Int) := by unfold wrap32; omega
    rw [this]
    exact Int.mul_tdiv_cancel_left _ (by decide)
  have e5 : ¬ toU32 (4 * (n : Int)) < 4 * (n : Int) := by unfold toU32; omega
  obtain ⟨nb2, dst, pts, ost1, _, _, _, host1, hcases⟩ :=
    write_audio_frame_cases L
      { ctx.audio_st with tmp_frame := some { tmp with data := buf } } (n : Int) e c fr
      { tmp with data := buf } hc hfr rfl hret
  have hw : ∃ r ost2 tr,
      write_audio_frame L { ctx.audio_st with tmp_frame := some { tmp with data := buf } }
        (n : Int) e = some (r, ost2, tr) ∧
      ost2.enc.isSome ∧ ost2.frame.isSome ∧
      ost2.tmp_frame = some { tmp with data := buf, pts := ctx.audio_st.next_pts } ∧
      audio_calls tr = [(n : Int)] := by
    rcases hcases with ⟨_, hw⟩ | ⟨_, _, hw⟩ | ⟨_, _, r, evs, hw, hkind⟩
    · refine ⟨_, _, _, hw, ?_, ?_, ?_, ?_⟩
      · rw [host1]; simp [hc]
      · rw [host1]; simp [hfr]
      · rw [host1]
      · simp [audio_calls]
    · refine ⟨_, _, _, hw, ?_, ?_, ?_, ?_⟩
      · rw [host1]; simp [hc]
      · rw [host1]; simp [hfr]
      · rw [host1]
      · simp [audio_calls]
    · refine ⟨_, _, _, hw, ?_, ?_, ?_, ?_⟩
      · rw [host1]; simp [hc]
      · rfl
      · rw [host1]
      · simp [audio_calls, audio_calls_of_loop _ _ hkind]
  obtain ⟨r, ost2, tr, hw, h2enc, h2fr, h2tmp, h2calls⟩ := hw
  refine ⟨r, { ctx with audio_st := ost2, bufferedAudio := 0 }, tr, ?_, ?_, h2calls⟩
  · unfold streaming_audio
    simp only [htmp, e3, hm, e4, hw, e1, e5, ↓reduceIte]
  · exact ⟨h2enc, h2fr, ⟨_, h2tmp, hnb, by rw [hblen]; exact hlen⟩, rfl⟩

/-- C9: on a session whose audio frame holds `nb` samples (capacity
`4 * nb` bytes, an `int`) and whose accumulator is empty, any number of
consecutive `streaming_audio` pushes of exactly `nb` samples each returns, and
after each push `k` there have been exactly `k` invocations of
`write_audio_frame`, each with `nb` samples, and `bufferedAudio` is 0. -/
theorem full_frame_pushes (L : Lib) (nb : Nat) (hcap : 4 * nb ≤ 2147483647)
    (pushes : List (Nat × List Nat × AudioEnv)) (ctx : StreamContext)
    (hctx : audio_ready nb ctx)
    (hp : ∀ p ∈ pushes, p.1 = nb ∧ 4 * nb ≤ p.2.1.length ∧ audio_returns L p.2.2) :
    ∀ k, k ≤ pushes.length →
      ∃ ctx2 tr, audio_session L ctx (pushes.take k) = some (ctx2, tr) ∧
        ctx2.bufferedAudio = 0 ∧ audio_calls tr = List.replicate k (nb : Int) := by
  have all : ∀ (ps : List (Nat × List Nat × AudioEnv)) (ctx : StreamContext),
      audio_ready nb ctx →
      (∀ p ∈ ps, p.1 = nb ∧ 4 * nb ≤ p.2.1.length ∧ audio_returns L p.2.2) →
      ∃ ctx2 tr, audio_session L ctx ps = some (ctx2, tr) ∧
        audio_ready nb ctx2 ∧ audio_calls tr = List.replicate ps.length (nb : Int) := by
    intro ps
    induction ps with
    | nil => intro ctx h _; exact ⟨ctx, [], rfl, h, rfl⟩
    | cons p rest ih =>
      intro ctx h hps
      obtain ⟨len, data, e⟩ := p
      obtain ⟨hl, hd, hr⟩ := hps (len, data, e) (List.mem_cons_self _ _)
      simp only at hl hd hr
      subst hl
      obtain ⟨r, ctx1, tr1, h1, hready, hcalls⟩ :=
        streaming_audio_full_push L len hcap ctx h data hd e hr
      obtain ⟨ctx2, tr2, h2, hready2, hcalls2⟩ :=
        ih ctx1 hready (fun q hq => hps q (List.mem_cons_of_mem _ hq))
      refine ⟨ctx2, tr1 ++ tr2, by simp only [audio_session, h1, h2], hready2, ?_⟩
      rw [audio_calls_append, hcalls, hcalls2]
      rfl
  intro k hk
  obtain ⟨ctx2, tr, h1, h2, h3⟩ :=
    all (pushes.take k) ctx hctx (fun p hp2 => hp p (List.mem_of_mem_take hp2))
  refine ⟨ctx2, tr, h1, h2.2.2.2, ?_⟩
  rw [h3, List.length_take, Nat.min_eq_left hk]

/-- Instance of C9: ten pushes of two samples each into a frame of two
samples. -/
theorem full_frame_pushes_witness :
    ∃ ctx2 tr,
      audio_session sampleLib (sampleCtx 2)
        ((List.replicate 10 (2, [1, 2, 3, 4, 5, 6, 7, 8], quietAudio)).take 10) =
          some (ctx2, tr) ∧
      ctx2.bufferedAudio = 0 ∧ audio_calls tr = List.replicate 10 ((2 : Nat) : Int) :=
  full_frame_pushes sampleLib 2 (by decide)
    (List.replicate 10 (2, [1, 2, 3, 4, 5, 6, 7, 8], quietAudio)) (sampleCtx 2)
    ⟨rfl, rfl, ⟨_, rfl, rfl, by decide⟩, rfl⟩ (by decide) 10 (by decide)

/-- C1 (the code departs from the claim): with a frame capacity of 8 bytes,
one push of 4 bytes (N = 0, R = 4) already invokes `write_audio_frame`, with
one sample and a half-filled buffer, and leaves `bufferedAudio = 0`; and the
same 8 bytes reach the encoder path as two calls of one sample when pushed as
4 + 4 bytes but as one call of two samples when pushed at once. -/
theorem streaming_audio_encodes_every_push :
    (audio_session sampleLib (sampleCtx 2) [(1, [1, 2, 3, 4], quietAudio)]).map
        (fun r => (audio_calls r.2, audio_payloads r.2, r.1.bufferedAudio)) =
      some ([1], [[1, 2, 3, 4]], 0) ∧
    (audio_session sampleLib (sampleCtx 2)
        [(1, [1, 2, 3, 4], quietAudio), (1, [5, 6, 7, 8], quietAudio)]).map
        (fun r => (audio_calls r.2, audio_payloads r.2, r.1.bufferedAudio)) =
      some ([1, 1], [[1, 2, 3, 4], [5, 6, 7, 8]], 0) ∧
    (audio_session sampleLib (sampleCtx 2)
        [(2, [1, 2, 3, 4, 5, 6, 7, 8], quietAudio)]).map
        (fun r => (audio_calls r.2, audio_payloads r.2, r.1.bufferedAudio)) =
      some ([2], [[1, 2, 3, 4, 5, 6, 7, 8]], 0) := by
  decide

/-- C2 (the code departs from the claim): with a frame capacity of 4 bytes and
an empty accumulator, a push of 8 bytes out of a 12-byte object leaves the
source buffer holding the bytes at offsets 8..11 of the object, not 4..7, and
`bufferedAudio = 0`, not 4; when the object holds just the 8 bytes pushed the
second copy reads past its end. -/
theorem streaming_audio_leftover_lost :
    (streaming_audio sampleLib (sampleCtx 1) 2
        [10, 11, 12, 13, 14, 15, 16, 17, 18, 19, 20, 21] quietAudio).map
        (fun r => (r.2.1.audio_st.tmp_frame.map AVFrame.data, r.2.1.bufferedAudio,
                   audio_calls r.2.2)) =
      some (some [18, 19, 20, 21], 0, [1]) ∧
    streaming_audio sampleLib (sampleCtx 1) 2 [10, 11, 12, 13, 14, 15, 16, 17] quietAudio =
      none := by
  decide

/-! ### Setup and teardown -/

/-- C5 (the code departs from the claim): `streaming_init` returns 0 although
the audio encoder rejected the configuration (`avcodec_open2` failed in
`open_audio`, which returned -22), and likewise although the resampler could
not be initialised (`open_audio` returned -1); the dropped results are listed
next to the return value. -/
theorem streaming_init_drops_setup_results :
    (streaming_init sampleLib freshCtx
        { sampleInit with open_audio := { sampleInit.open_audio with open2 := -22 } }).map
        (fun r => (r.1, r.2.2)) =
      some (0, [some 0, some 0, some 0, some (-22)]) ∧
    (streaming_init sampleLib freshCtx
        { sampleInit with open_audio := { sampleInit.open_audio with swr_init := -1 } }).map
        (fun r => (r.1, r.2.2)) =
      some (0, [some 0, some 0, some 0, some (-1)]) ∧
    (streaming_init sampleLib freshCtx sampleInit).map (fun r => (r.1, r.2.2)) =
      some (0, [some 0, some 0, some 0, some 0]) := by
  decide

/-- C6 (the claim fails): the cleanup of an opened session returns having
written the trailer without a flush of the video pipeline and without a flush
of the audio pipeline before it. -/
theorem streaming_cleanup_no_flush :
    ∃ r ctx2 tr, streaming_cleanup (sampleCtx 2) = some (r, ctx2, tr) ∧
      ¬ flushed_before_trailer sampleLib Kind.video tr ∧
      ¬ flushed_before_trailer sampleLib Kind.audio tr := by
  refine ⟨_, _, _, rfl, ?_, ?_⟩
  · rintro ⟨pre, post, h, ⟨ret, hm⟩, _⟩
    have hmem := List.mem_append_left (Event.write_trailer :: post) hm
    rw [← h] at hmem
    simp [close_stream] at hmem
  · rintro ⟨pre, post, h, ⟨ret, hm⟩, _⟩
    have hmem := List.mem_append_left (Event.write_trailer :: post) hm
    rw [← h] at hmem
    simp [close_stream] at hmem

/-- C6 as amended: for every session that holds a container context,
`streaming_cleanup` returns 0 after exactly four calls, in this order: it
writes the trailer, closes the video pipeline, closes the audio pipeline,
frees the container context; it never sends a frame to an encoder nor asks
one for a packet; afterwards, in both pipelines, the codec context, the two
frames and the packet are `NULL` and both conversion contexts are cleared, and
`oc` is `NULL`. -/
theorem streaming_cleanup_order (ctx : StreamContext) (hoc : ctx.oc = true) :
    ∃ ctx2 tr, streaming_cleanup ctx = some (0, ctx2, tr) ∧
      tr = [Event.write_trailer, Event.close_stream Kind.video,
            Event.close_stream Kind.audio, Event.free_context] ∧
      (∀ k pts ret, Event.send_frame k pts ret ∉ tr) ∧
      (∀ k ret, Event.receive_packet k ret ∉ tr) ∧
      (ctx2.video_st.enc = none ∧ ctx2.video_st.frame = none ∧
        ctx2.video_st.tmp_frame = none ∧ ctx2.video_st.sws_ctx = false ∧
        ctx2.video_st.swr_ctx = false ∧ ctx2.video_st.pkt = false) ∧
      (ctx2.audio_st.enc = none ∧ ctx2.audio_st.frame = none ∧
        ctx2.audio_st.tmp_frame = none ∧ ctx2.audio_st.sws_ctx = false ∧
        ctx2.audio_st.swr_ctx = false ∧ ctx2.audio_st.pkt = false) ∧
      ctx2.oc = false := by
  refine ⟨_, _, by simp only [streaming_cleanup, hoc]; rfl, rfl, ?_, ?_,
    ⟨rfl, rfl, rfl, rfl, rfl, rfl⟩, ⟨rfl, rfl, rfl, rfl, rfl, rfl⟩, rfl⟩
  · intro k pts ret h
    simp [close_stream] at h
  · intro k ret h
    simp [close_stream] at h

/-- Instance of C6 as amended, on an opened session. -/
theorem streaming_cleanup_order_witness :
    (sampleCtx 2).oc = true ∧
    ∃ ctx2 tr, streaming_cleanup (sampleCtx 2) = some (0, ctx2, tr) ∧
      tr = [Event.write_trailer, Event.close_stream Kind.video,
            Event.close_stream Kind.audio, Event.free_context] ∧
      (∀ k pts ret, Event.send_frame k pts ret ∉ tr) ∧
      (∀ k ret, Event.receive_packet k ret ∉ tr) ∧
      (ctx2.video_st.enc = none ∧ ctx2.video_st.frame = none ∧
        ctx2.video_st.tmp_frame = none ∧ ctx2.video_st.sws_ctx = false ∧
        ctx2.video_st.swr_ctx = false ∧ ctx2.video_st.pkt = false) ∧
      (ctx2.audio_st.enc = none ∧ ctx2.audio_st.frame = none ∧
        ctx2.audio_st.tmp_frame = none ∧ ctx2.audio_st.sws_ctx = false ∧
        ctx2.audio_st.swr_ctx = false ∧ ctx2.audio_st.pkt = false) ∧
      ctx2.oc = false :=
  ⟨rfl, streaming_cleanup_order (sampleCtx 2) rfl⟩

theorem scan_capabilities_eq (preferred : Int) :
    ∀ (arr : List Int) (cur : Int), 0 ∈ arr →
      scan_capabilities preferred arr cur =
        some (if preferred ∈ arr.takeWhile (fun x => x ≠ 0) then preferred else cur) := by
  intro arr
  induction arr with
  | nil => intro cur h; simp at h
  | cons x rest ih =>
    intro cur h
    by_cases hx : x = 0
    · subst hx
      simp [scan_capabilities]
    · have hrest : 0 ∈ rest := by
        rcases List.mem_cons.mp h with h | h
        · exact absurd h.symm hx
        · exact h
      rw [scan_capabilities, if_neg hx, ih _ hrest]
      by_cases hp : x = preferred
      · subst hp
        simp [List.takeWhile, hx]
      · have hp2 : ¬ preferred = x := fun h => hp h.symm
        simp [List.takeWhile, hx, hp, hp2]

theorem select_capability_eq (preferred : Int) (arr : List Int) (h : 0 ∈ arr) :
    select_capability preferred (some arr) = some (spec_select preferred (some arr)) := by
  cases arr with
  | nil => simp at h
  | cons x rest =>
    rw [select_capability, scan_capabilities_eq preferred (x :: rest) x h]
    simp [spec_select]

/-- C10: when `add_stream` configures an audio encoder (every allocation
succeeds and each advertised array is zero-terminated), the sample rate it
selects is 44100 if 44100 occurs in the advertised list and otherwise the
first entry of the array, and 44100 if no list is advertised; the channel
layout is selected by the same rule with stereo as the preferred value. -/
theorem add_stream_audio_selection (L : Lib) (ost : OutputStream) (nb_streams : Int)
    (globalheader : Bool) (width height fps : Int) (e : StreamEnv)
    (codec : AVCodec) (st : AVStream) (c : AVCodecContext)
    (hfind : e.find_encoder = some codec) (hst : e.new_stream = some st)
    (hctx : e.alloc_context3 = some c) (hpkt : e.packet_alloc = true)
    (htype : codec.type = AVMediaType.audio)
    (hfmts : ∀ arr, codec.sample_fmts = some arr → arr ≠ [])
    (hrates : ∀ arr, codec.supported_samplerates = some arr → 0 ∈ arr)
    (hlayouts : ∀ arr, codec.channel_layouts = some arr → 0 ∈ arr) :
    ∃ ost2 n2 c2,
      add_stream L ost nb_streams globalheader width height fps e =
        some (0, ost2, some codec, n2) ∧
      ost2.enc = some c2 ∧
      c2.sample_rate = spec_select 44100 codec.supported_samplerates ∧
      c2.channel_layout = spec_select L.AV_CH_LAYOUT_STEREO codec.channel_layouts ∧
      spec_select 44100 none = 44100 ∧
      spec_select L.AV_CH_LAYOUT_STEREO none = L.AV_CH_LAYOUT_STEREO := by
  have h1 : ∃ f, first_capability L.AV_SAMPLE_FMT_S16 codec.sample_fmts = some f := by
    cases hs : codec.sample_fmts with
    | none => exact ⟨_, rfl⟩
    | some arr =>
      cases arr with
      | nil => exact absurd rfl (hfmts [] hs)
      | cons x rest => exact ⟨x, rfl⟩
  have h2 : ∀ (p : Int) (o : Option (List Int)), (∀ arr, o = some arr → 0 ∈ arr) →
      select_capability p o = some (spec_select p o) := by
    intro p o ho
    cases o with
    | none => rfl
    | some arr => exact select_capability_eq p arr (ho arr rfl)
  obtain ⟨f, hf⟩ := h1
  have hr := h2 44100 codec.supported_samplerates hrates
  have hl := h2 L.AV_CH_LAYOUT_STEREO codec.channel_layouts hlayouts
  unfold add_stream
  simp only [hfind, hst, hctx, hpkt, htype, hf, hr, hl]
  cases globalheader <;> simp [spec_select]

/-- Instance of C10: an encoder that advertises 48000 and 44100 Hz and mono
only is configured with 44100 Hz (present in the list) and mono (stereo is
absent, so the first entry). -/
theorem add_stream_audio_selection_witness :
    ∃ ost2 n2 c2,
      add_stream sampleLib freshCtx.audio_st 0 false 320 240 25
          (sampleStreamEnv sampleAudioCodec) =
        some (0, ost2, some sampleAudioCodec, n2) ∧
      ost2.enc = some c2 ∧
      c2.sample_rate = spec_select 44100 sampleAudioCodec.supported_samplerates ∧
      c2.channel_layout =
        spec_select sampleLib.AV_CH_LAYOUT_STEREO sampleAudioCodec.channel_layouts ∧
      spec_select 44100 none = 44100 ∧
      spec_select sampleLib.AV_CH_LAYOUT_STEREO none = sampleLib.AV_CH_LAYOUT_STEREO :=
  add_stream_audio_selection sampleLib freshCtx.audio_st 0 false 320 240 25
    (sampleStreamEnv sampleAudioCodec) sampleAudioCodec
    { id := 0, time_base := ⟨0, 1⟩, codecpar_set := false }
    { sampleEnc with sample_rate := 0, channel_layout := 0, channels := 0,
                     time_base := ⟨0, 1⟩, opened := false }
    rfl rfl rfl rfl rfl (by decide) (by decide) (by decide)

/-! ### Failed frame preparation -/

/-- C11 (the code departs from the claim): when `av_frame_make_writable`
fails, and likewise when `sws_getContext` yields no context, `get_video_frame`
returns `NULL`, `write_video_frame` hands that `NULL` frame to the encoder and,
the encoder accepting it and reporting that it is not ready, `streaming_video`
returns 0.  The audio path, by contrast, returns the error of a failed
`av_frame_make_writable` and sends nothing. -/
theorem streaming_video_failed_frame_returns_zero :
    (streaming_video sampleLib (sampleCtx 2) ⟨⟨-1, true⟩, 0, [⟨-11, 0⟩]⟩).map
        (fun r => (r.1, r.2.2)) =
      some (0, [Event.send_frame Kind.video none 0,
                Event.receive_packet Kind.video (-11)]) ∧
    (streaming_video sampleLib (sampleCtx 2) ⟨⟨0, false⟩, 0, [⟨-11, 0⟩]⟩).map
        (fun r => (r.1, r.2.2)) =
      some (0, [Event.send_frame Kind.video none 0,
                Event.receive_packet Kind.video (-11)]) ∧
    (write_audio_frame sampleLib (sampleStream 2) 2
        { quietAudio with make_writable := -1 }).map
        (fun r => (r.1, sent_pts Kind.audio r.2.2)) =
      some (-1, []) := by
  decide

end Muxing
